import Mathlib

/-!
Shallow embedding of the media relay bot (`bot.py` and `users/login.py`).

The distribution side (`bot.py`) classifies a staged file by extension
(with an ffprobe audio check for `.mp4`), fans it out to every chat id in
the recipient registry with up to 3 passes over a shrinking pending set,
and unconditionally deletes the file afterwards.  The ingestion side
(`users/login.py`) filters inbound media events against a blocklist and
derives a deterministic staging filename.

External effects (subprocess probe, Telegram sends, filesystem calls) are
modelled by explicit outcome parameters; the control flow and the data
transformations are translated directly from the source.
-/

/-- Outcome of invoking the external ffprobe subprocess in `has_audio`
(`bot.py` lines 107-119).  `exn` models `subprocess.run` itself raising an
exception (caught by the `except` clause); `completed code stdout` models a
finished subprocess with the given exit status and captured stdout.  Note
that `subprocess.run` is called without `check=True`, so a non-zero exit
status does not raise. -/
inductive ProbeOutcome
  | exn
  | completed (exitCode : Nat) (stdout : String)
deriving DecidableEq

/-- Embedding of Python `str.strip()`: remove leading and trailing
whitespace characters. -/
def py_strip (s : String) : String :=
  String.mk (((s.toList.dropWhile Char.isWhitespace).reverse.dropWhile
    Char.isWhitespace).reverse)

/-- Embedding of Python `str.lower()` for the ASCII file extensions and
probe output this program handles: lower-case every character. -/
def py_lower (s : String) : String :=
  String.mk (s.toList.map Char.toLower)

/-- Embedding of `has_audio` (`bot.py` lines 102-124): on a completed
subprocess the result is `bool(result.stdout.strip())`, i.e. whether the
stripped stdout is non-empty, ignoring the exit status; if the subprocess
call raises, the handler returns `True` ("Safer default"). -/
def has_audio : ProbeOutcome → Bool
  | .exn => true
  | .completed _ out => !(py_strip out == "")

/-- Extension set `photo_ext` (`bot.py` line 70). -/
def photo_ext : List String := [".jpg", ".jpeg", ".png"]

/-- Extension set `video_ext` (`bot.py` line 71). -/
def video_ext : List String := [".mp4", ".mov", ".avi", ".mkv"]

/-- Extension set `animation_ext` (`bot.py` line 72). -/
def animation_ext : List String := [".gif", ".webm"]

/-- Extension set `sticker_ext` (`bot.py` line 73). -/
def sticker_ext : List String := [".webp"]

/-- Extension set `voice_ext` (`bot.py` line 74). -/
def voice_ext : List String := [".oga"]

/-- Extension set `music_ext` (`bot.py` line 75). -/
def music_ext : List String := [".mp3"]

/-- Union `allowed_extensions` (`bot.py` line 76). -/
def allowed_extensions : List String :=
  photo_ext ++ video_ext ++ animation_ext ++ sticker_ext ++ voice_ext ++ music_ext

/-- Transport kinds, one per Telegram send method selected in `send_media`
(`bot.py` lines 139-176). -/
inductive TransportKind
  | photo
  | video
  | animation
  | voice
  | audio
  | sticker
  | document
deriving DecidableEq

/-- Embedding of the `if`/`elif` dispatch on the lower-cased extension in
`send_media` (`bot.py` lines 139-176), with the `.mp4` special case
delegating to `has_audio`. -/
def classify_lower (ext : String) (probe : ProbeOutcome) : TransportKind :=
  if ext ∈ photo_ext then .photo
  else if ext ∈ video_ext then
    if ext = ".mp4" then
      if has_audio probe then .video else .animation
    else .video
  else if ext ∈ voice_ext then .voice
  else if ext ∈ music_ext then .audio
  else if ext ∈ animation_ext then .animation
  else if ext ∈ sticker_ext then .sticker
  else .document

/-- Classification of a raw file extension: `send_media` lower-cases the
suffix first (`bot.py` line 137: `ext = file_path.suffix.lower()`). -/
def classify (ext : String) (probe : ProbeOutcome) : TransportKind :=
  classify_lower (py_lower ext) probe

/-- Observable events of one `send_media` invocation, in program order:
`probe` is the ffprobe access of the staged file (line 145), `settle` the
`await asyncio.sleep(3)` (line 179), `send k c ok` one delivery attempt to
chat `c` during pass `k` with outcome `ok` (lines 190-210), `backoff k` the
`await asyncio.sleep(1)` after pass `k` (lines 211-212), and `unlink ok`
the final `file_path.unlink()` attempt (lines 219-223). -/
inductive Event
  | probe
  | settle
  | send (attempt : Nat) (chat : Int) (ok : Bool)
  | backoff (attempt : Nat)
  | unlink (ok : Bool)
deriving DecidableEq

/-- Whether an event is a delivery attempt to recipient `r`. -/
def Event.isSendTo (r : Int) : Event → Bool
  | .send _ c _ => c == r
  | _ => false

/-- Whether an event is a delivery attempt to recipient `r` during pass `k`. -/
def Event.isSendAt (k : Nat) (r : Int) : Event → Bool
  | .send a c _ => a == k && c == r
  | _ => false

/-- Whether an event is a successful delivery to recipient `r`. -/
def Event.isSuccessTo (r : Int) : Event → Bool
  | .send _ c ok => c == r && ok
  | _ => false

/-- Whether an event belongs to the delivery loop (a send or a backoff). -/
def Event.isLoopEv : Event → Bool
  | .send _ _ _ => true
  | .backoff _ => true
  | _ => false

/-- Whether an event is the file-deletion attempt. -/
def Event.isUnlinkEv : Event → Bool
  | .unlink _ => true
  | _ => false

/-- Whether an event is the settle delay. -/
def Event.isSettleEv : Event → Bool
  | .settle => true
  | _ => false

/-- Embedding of the retry loop of `send_media` (`bot.py` lines 186-212):
`for attempt in range(1, 4)` with an early `break` when `pending_ids` is
empty; one delivery attempt per still-pending chat per pass (the outcome of
attempting chat `c` on pass `k` is given by the oracle `succ k c`);
successful chats are removed from the pending set; after a pass the loop
sleeps 1 second when chats remain pending. -/
def send_media_loop (succ : Nat → Int → Bool) : List Nat → List Int → List Event
  | [], _ => []
  | k :: ks, pending =>
    if pending.isEmpty then []
    else
      (pending.map fun c => Event.send k c (succ k c))
        ++ (if (pending.filter fun c => !(succ k c)).isEmpty then []
            else [Event.backoff k])
        ++ send_media_loop succ ks (pending.filter fun c => !(succ k c))

/-- File accesses performed by the classification phase of `send_media`
(`bot.py` lines 137-176): only the `.mp4` branch touches the file, by
running ffprobe on it (line 145). -/
def classify_probe_events (ext : String) : List Event :=
  if py_lower ext = ".mp4" then [Event.probe] else []

/-- Event trace of one `send_media` invocation (`bot.py` lines 128-223):
classification (probing the file when the extension is `.mp4`), then the
settle delay `await asyncio.sleep(3)`, then the retry loop over
`set(chat_ids)` (deduplicated snapshot, line 185), then the unconditional
`file_path.unlink()` attempt whose outcome is `unlink_ok`. -/
def send_media (ext : String) (chat_ids : List Int) (succ : Nat → Int → Bool)
    (unlink_ok : Bool) : List Event :=
  classify_probe_events ext ++ [Event.settle]
    ++ send_media_loop succ [1, 2, 3] chat_ids.dedup ++ [Event.unlink unlink_ok]

/-- Delivery attempts a single pending recipient `r` experiences along the
given pass schedule: one attempt per pass until the first success, after
which the recipient leaves the pending set. -/
def retry_trace (succ : Nat → Int → Bool) (r : Int) : List Nat → List Event
  | [] => []
  | k :: ks =>
    Event.send k r (succ k r) :: (if succ k r then [] else retry_trace succ r ks)

/-- Directory entries seen by one pass of `monitor_folder`
(`bot.py` lines 233-248): regular files, directories, and anything else
(for which neither `is_file()` nor `is_dir()` holds, left untouched). -/
inductive FsEntry
  | file (name : String)
  | dir (name : String)
  | other (name : String)
deriving DecidableEq

/-- Action taken by the monitor for one directory entry. -/
inductive MonAction
  | distribute (name : String)
  | delFile (name : String)
  | delDir (name : String)
deriving DecidableEq

/-- Index of the last occurrence of the dot character in a character list. -/
def last_dot_idx : List Char → Option Nat
  | [] => none
  | c :: cs =>
    match last_dot_idx cs with
    | some i => some (i + 1)
    | none => if c = '.' then some 0 else none

/-- Embedding of `pathlib.Path(name).suffix`: the substring from the last
dot, provided that dot is neither the first nor the last character;
otherwise the empty string. -/
def path_suffix (name : String) : String :=
  match last_dot_idx name.toList with
  | some i =>
    if 0 < i ∧ i + 1 < name.toList.length then String.mk (name.toList.drop i) else ""
  | none => ""

/-- Per-entry behaviour of one `monitor_folder` pass (`bot.py` lines
233-248): an allowed-extension file is handed to `send_media`, any other
file is unlinked, a directory is removed recursively, anything else is
ignored. -/
def handle_entry : FsEntry → List MonAction
  | .file n =>
    if py_lower (path_suffix n) ∈ allowed_extensions then [.distribute n]
    else [.delFile n]
  | .dir n => [.delDir n]
  | .other _ => []

/-- Actions of one full pass of `monitor_folder` over a directory snapshot
(`bot.py` lines 233-248): entries are processed sequentially, each file
distribution being awaited to completion before the next entry. -/
def monitor_folder_pass (entries : List FsEntry) : List MonAction :=
  (entries.map handle_entry).flatten

/-- Embedding of the registry mutation in `add_command` (`bot.py` lines
264-269) after the owner and argument checks pass: append the id unless
already present. -/
def add_command (chat_ids : List Int) (new_id : Int) : List Int :=
  if new_id ∈ chat_ids then chat_ids else chat_ids ++ [new_id]

/-- Embedding of the registry mutation in `remove_command` (`bot.py` lines
289-301) after the owner and argument checks pass: `list.remove` deletes
the first occurrence when present. -/
def remove_command (chat_ids : List Int) (rem_id : Int) : List Int :=
  if rem_id ∈ chat_ids then chat_ids.erase rem_id else chat_ids

/-- Parsed content of the JSON document uploaded to
`json_document_handler` (`bot.py` lines 329-343): a JSON array of ids, a
well-formed JSON value that is not a list, or unparseable data. -/
inductive JsonPayload
  | list (xs : List Int)
  | nonList
  | malformed
deriving DecidableEq

/-- Embedding of the registry effect of `json_document_handler` (`bot.py`
lines 329-343): a JSON list replaces `chat_ids` verbatim; a non-list value
or a parse failure leaves the registry unchanged (only a reply is sent). -/
def json_document_handler (chat_ids : List Int) (payload : JsonPayload) : List Int :=
  match payload with
  | .list xs => xs
  | .nonList => chat_ids
  | .malformed => chat_ids

/-- Document attributes inspected by `new_media_handler`
(`users/login.py` lines 189-195). -/
inductive DocAttr
  | animation
  | video
  | other
deriving DecidableEq

/-- Embedding of the attribute scan of `new_media_handler` (`users/login.py`
lines 188-195): an animation attribute yields "gif" and breaks out of the
loop; a video attribute records "video" and keeps scanning. -/
def media_type_scan : List DocAttr → Option String → Option String
  | [], acc => acc
  | a :: rest, acc =>
    match a with
    | .animation => some "gif"
    | .video => media_type_scan rest (some "video")
    | .other => media_type_scan rest acc

/-- Inbound media event as consumed by `new_media_handler`
(`users/login.py` lines 174-206): chat id, optional sender id, message id,
whether the message carries media, and the document attribute list (empty
when there is no document). -/
structure InEvent where
  chat_id : Int
  sender_id : Option Int
  message_id : Int
  carries_media : Bool
  doc_attrs : List DocAttr
deriving DecidableEq

/-- Python truthiness of the optional `sender_id` (`users/login.py` lines
179 and 184): `None` and `0` are falsy. -/
def py_truthy : Option Int → Bool
  | none => false
  | some s => !(s == 0)

/-- Embedding of `new_media_handler` (`users/login.py` lines 173-207):
for a media-carrying event, reload the blocklist, drop the event when the
chat id is blocked or the sender id is truthy and blocked; otherwise derive
the staging file name from the identifier (sender id when truthy, else chat
id), the message id, and the scanned media-type suffix.  The result is the
staged file name, or `none` when nothing is persisted. -/
def new_media_handler (ev : InEvent) (blocked : List Int) : Option String :=
  if ev.carries_media then
    if ev.chat_id ∈ blocked ∨ (py_truthy ev.sender_id ∧ ev.sender_id.getD 0 ∈ blocked) then
      none
    else
      let identifier := if py_truthy ev.sender_id then ev.sender_id.getD 0 else ev.chat_id
      let base := toString identifier ++ "-" ++ toString ev.message_id
      some (match media_type_scan ev.doc_attrs none with
            | some "gif" => base ++ "-gif"
            | some "video" => base ++ "-video"
            | _ => base)
  else none

/-! ### Helper lemmas about the retry loop -/

lemma classify_lower_mp4 (p : ProbeOutcome) :
    classify_lower ".mp4" p = if has_audio p then .video else .animation := by
  unfold classify_lower
  rw [if_neg (by decide), if_pos (by decide), if_pos rfl]

lemma filter_send_map (succ : Nat → Int → Bool) (k : Nat) (r : Int) :
    ∀ pending : List Int, pending.Nodup →
      ((pending.map fun c => Event.send k c (succ k c)).filter (Event.isSendTo r))
        = if r ∈ pending then [Event.send k r (succ k r)] else [] := by
  intro pending
  induction pending with
  | nil => intro _; simp
  | cons c cs ih =>
    intro hnd
    rcases List.nodup_cons.mp hnd with ⟨hc, hcs⟩
    by_cases hcr : c = r
    · subst hcr
      simp [List.filter_cons, Event.isSendTo, ih hcs, hc]
    · simp [List.filter_cons, Event.isSendTo, ih hcs, hcr, Ne.symm hcr]

lemma filter_send_loop (succ : Nat → Int → Bool) (r : Int) :
    ∀ (ks : List Nat) (pending : List Int), pending.Nodup →
      ((send_media_loop succ ks pending).filter (Event.isSendTo r))
        = if r ∈ pending then retry_trace succ r ks else [] := by
  intro ks
  induction ks with
  | nil => intro pending _; simp [send_media_loop, retry_trace]
  | cons k ks ih =>
    intro pending hnd
    by_cases hp : pending.isEmpty
    · have hpe : pending = [] := List.isEmpty_iff.mp hp
      subst hpe
      simp [send_media_loop]
    · rw [send_media_loop, if_neg hp, List.filter_append, List.filter_append]
      rw [filter_send_map succ k r pending hnd]
      have hrest : (pending.filter fun c => !(succ k c)).Nodup := hnd.filter _
      rw [ih _ hrest]
      have hback : ((if (pending.filter fun c => !(succ k c)).isEmpty then ([] : List Event)
          else [Event.backoff k]).filter (Event.isSendTo r)) = [] := by
        by_cases hb : (pending.filter fun c => !(succ k c)).isEmpty <;>
          simp [hb, Event.isSendTo]
      rw [hback]
      by_cases hr : r ∈ pending
      · by_cases hs : succ k r
        · have hnr : r ∉ pending.filter fun c => !(succ k c) := by
            simp [List.mem_filter, hs]
          simp [hr, hnr, retry_trace, hs]
        · have hin : r ∈ pending.filter fun c => !(succ k c) := by
            simp [List.mem_filter, hr, hs]
          simp [hr, hin, retry_trace, hs]
      · have hnr : r ∉ pending.filter fun c => !(succ k c) := by
          intro hmem
          exact hr (List.mem_filter.mp hmem).1
        simp [hr, hnr]

lemma filter_send_trace (ext : String) (chats : List Int) (succ : Nat → Int → Bool)
    (uok : Bool) (r : Int) :
    ((send_media ext chats succ uok).filter (Event.isSendTo r))
      = if r ∈ chats then retry_trace succ r [1, 2, 3] else [] := by
  unfold send_media
  rw [List.filter_append, List.filter_append, List.filter_append]
  rw [filter_send_loop succ r _ _ (List.nodup_dedup chats)]
  have h1 : (classify_probe_events ext).filter (Event.isSendTo r) = [] := by
    unfold classify_probe_events
    by_cases h : py_lower ext = ".mp4" <;> simp [h, Event.isSendTo]
  have h2 : (([Event.settle] : List Event)).filter (Event.isSendTo r) = [] := by
    simp [Event.isSendTo]
  have h3 : (([Event.unlink uok] : List Event)).filter (Event.isSendTo r) = [] := by
    simp [Event.isSendTo]
  rw [h1, h2, h3]
  simp [List.mem_dedup]

lemma send_mem_trace {ext : String} {chats : List Int} {succ : Nat → Int → Bool}
    {uok : Bool} {k : Nat} {r : Int} {ok : Bool} :
    Event.send k r ok ∈ send_media ext chats succ uok
      ↔ r ∈ chats ∧ Event.send k r ok ∈ retry_trace succ r [1, 2, 3] := by
  constructor
  · intro h
    have hf : Event.send k r ok ∈ (send_media ext chats succ uok).filter (Event.isSendTo r) :=
      List.mem_filter.mpr ⟨h, by simp [Event.isSendTo]⟩
    rw [filter_send_trace] at hf
    by_cases hr : r ∈ chats
    · rw [if_pos hr] at hf
      exact ⟨hr, hf⟩
    · rw [if_neg hr] at hf
      simp at hf
  · rintro ⟨hr, hm⟩
    have hf : Event.send k r ok ∈ (send_media ext chats succ uok).filter (Event.isSendTo r) := by
      rw [filter_send_trace, if_pos hr]
      exact hm
    exact (List.mem_filter.mp hf).1

lemma send_media_loop_shape (succ : Nat → Int → Bool) :
    ∀ (ks : List Nat) (pending : List Int) (e : Event),
      e ∈ send_media_loop succ ks pending → e.isLoopEv = true := by
  intro ks
  induction ks with
  | nil => intro pending e h; simp [send_media_loop] at h
  | cons k ks ih =>
    intro pending e h
    by_cases hp : pending.isEmpty
    · simp [send_media_loop, hp] at h
    · rw [send_media_loop, if_neg hp] at h
      rcases List.mem_append.mp h with h | h
      · rcases List.mem_append.mp h with h | h
        · rcases List.mem_map.mp h with ⟨c, _, rfl⟩
          rfl
        · by_cases hb : (pending.filter fun c => !(succ k c)).isEmpty
          · simp [hb] at h
          · simp [hb] at h
            subst h
            rfl
      · exact ih _ _ h

lemma send_media_loop_countP_zero (succ : Nat → Int → Bool) (ks : List Nat)
    (pending : List Int) {p : Event → Bool}
    (hp : ∀ e, e.isLoopEv = true → p e = false) :
    (send_media_loop succ ks pending).countP p = 0 := by
  rw [List.countP_eq_zero]
  intro e he
  have hsh := send_media_loop_shape succ ks pending e he
  simp [hp e hsh]

lemma retry_trace_length_le (succ : Nat → Int → Bool) (r : Int) :
    ∀ ks : List Nat, (retry_trace succ r ks).length ≤ ks.length := by
  intro ks
  induction ks with
  | nil => simp [retry_trace]
  | cons k ks ih =>
    by_cases hs : succ k r
    · simp [retry_trace, hs]
    · simpa [retry_trace, hs] using ih

lemma retry_trace_sendAt_zero (succ : Nat → Int → Bool) (r : Int) (k : Nat) :
    ∀ ks : List Nat, k ∉ ks → (retry_trace succ r ks).countP (Event.isSendAt k r) = 0 := by
  intro ks
  induction ks with
  | nil => intro _; simp [retry_trace]
  | cons a ks ih =>
    intro hk
    have hka : ¬(a = k) := fun h => hk (h ▸ List.mem_cons_self a ks)
    have hkks : k ∉ ks := fun h => hk (List.mem_cons_of_mem a h)
    by_cases hs : succ a r <;>
      simp [retry_trace, hs, List.countP_cons, Event.isSendAt, hka, ih hkks]

lemma retry_trace_sendAt_le_one (succ : Nat → Int → Bool) (r : Int) (k : Nat) :
    ∀ ks : List Nat, ks.Nodup → (retry_trace succ r ks).countP (Event.isSendAt k r) ≤ 1 := by
  intro ks
  induction ks with
  | nil => intro _; simp [retry_trace]
  | cons a ks ih =>
    intro hnd
    rcases List.nodup_cons.mp hnd with ⟨ha, hks⟩
    by_cases hak : a = k
    · subst hak
      by_cases hs : succ a r <;>
        simp [retry_trace, hs, List.countP_cons, Event.isSendAt,
          retry_trace_sendAt_zero succ r a ks ha]
    · by_cases hs : succ a r
      · simp [retry_trace, hs, List.countP_cons, Event.isSendAt, hak]
      · simpa [retry_trace, hs, List.countP_cons, Event.isSendAt, hak] using ih hks

lemma retry_trace_success_le_one (succ : Nat → Int → Bool) (r : Int) :
    ∀ ks : List Nat, (retry_trace succ r ks).countP (Event.isSuccessTo r) ≤ 1 := by
  intro ks
  induction ks with
  | nil => simp [retry_trace]
  | cons a ks ih =>
    by_cases hs : succ a r
    · simp [retry_trace, hs, List.countP_cons, Event.isSuccessTo]
    · simpa [retry_trace, hs, List.countP_cons, Event.isSuccessTo] using ih

lemma countP_subpred {p q : Event → Bool} (hpq : ∀ e, p e = true → q e = true) :
    ∀ l : List Event, l.countP p = (l.filter q).countP p := by
  intro l
  rw [List.countP_filter]
  apply List.countP_congr
  intro a _
  by_cases hpa : p a
  · simp [hpa, hpq a hpa]
  · simp [hpa]

lemma isSendAt_imp_isSendTo (k : Nat) (r : Int) :
    ∀ e : Event, Event.isSendAt k r e = true → Event.isSendTo r e = true := by
  intro e he
  cases e <;> simp_all [Event.isSendAt, Event.isSendTo]

lemma isSuccessTo_imp_isSendTo (r : Int) :
    ∀ e : Event, Event.isSuccessTo r e = true → Event.isSendTo r e = true := by
  intro e he
  cases e <;> simp_all [Event.isSuccessTo, Event.isSendTo]

lemma countP_sendTo_trace (ext : String) (chats : List Int) (succ : Nat → Int → Bool)
    (uok : Bool) (r : Int) :
    (send_media ext chats succ uok).countP (Event.isSendTo r)
      = if r ∈ chats then (retry_trace succ r [1, 2, 3]).length else 0 := by
  rw [List.countP_eq_length_filter, filter_send_trace]
  by_cases hr : r ∈ chats <;> simp [hr]

lemma retry_trace_mem_attempt (succ : Nat → Int → Bool) (r : Int) (k : Nat) (ok : Bool) :
    ∀ ks : List Nat, Event.send k r ok ∈ retry_trace succ r ks → k ∈ ks := by
  intro ks
  induction ks with
  | nil => intro h; simp [retry_trace] at h
  | cons a ks ih =>
    intro h
    rw [retry_trace] at h
    rcases List.mem_cons.mp h with h | h
    · simp only [Event.send.injEq] at h
      simp [h.1]
    · by_cases hs : succ a r
      · rw [if_pos hs] at h
        simp at h
      · rw [if_neg hs] at h
        exact List.mem_cons_of_mem a (ih h)

lemma retry_trace_success_final (succ : Nat → Int → Bool) (r : Int) :
    ∀ ks : List Nat, List.Sorted (· < ·) ks →
      ∀ (k kk : Nat) (ok : Bool), Event.send k r true ∈ retry_trace succ r ks →
        Event.send kk r ok ∈ retry_trace succ r ks → kk ≤ k := by
  intro ks
  induction ks with
  | nil => intro _ k kk ok h _; simp [retry_trace] at h
  | cons a ks ih =>
    intro hs k kk ok hk hkk
    rcases List.sorted_cons.mp hs with ⟨ha, hks⟩
    cases hsa : succ a r
    · simp only [retry_trace, hsa, if_false, Bool.false_eq_true] at hk hkk
      rcases List.mem_cons.mp hk with h | h
      · simp at h
      · rcases List.mem_cons.mp hkk with h2 | h2
        · have hkmem := retry_trace_mem_attempt succ r k true ks h
          have hak : a < k := ha k hkmem
          simp only [Event.send.injEq] at h2
          omega
        · exact ih hks k kk ok h h2
    · simp only [retry_trace, hsa, if_true] at hk hkk
      simp at hk hkk
      omega

lemma takeWhile_all_append {p : Event → Bool} :
    ∀ l₁ l₂ : List Event, (∀ e ∈ l₁, p e = true) →
      (l₁ ++ l₂).takeWhile p = l₁ ++ l₂.takeWhile p := by
  intro l₁
  induction l₁ with
  | nil => intro l₂ _; simp
  | cons a l₁ ih =>
    intro l₂ h
    rw [List.cons_append, List.takeWhile_cons, h a (List.mem_cons_self a l₁)]
    rw [ih l₂ (fun e he => h e (List.mem_cons_of_mem a he))]
    rfl

lemma classify_probe_events_all_probe (ext : String) :
    ∀ e ∈ classify_probe_events ext, e = Event.probe := by
  unfold classify_probe_events
  by_cases h : py_lower ext = ".mp4" <;> simp [h]

/-! ### Claim theorems -/

/-- C1 counterexample: a ".mp4" staged file whose audio probe fails with a
non-zero exit status (exit 1, empty stdout — the behaviour of
`ffprobe -v error` on an unreadable file, whose diagnostics go to stderr)
is classified as animation, not the claimed safe default video:
`subprocess.run` is called without `check=True`, so the failed probe does
not reach the exception handler and `has_audio` returns false. -/
theorem mp4_probe_failure_counterexample :
    classify ".mp4" (ProbeOutcome.completed 1 "") = TransportKind.animation
    ∧ TransportKind.animation ≠ TransportKind.video := by decide

/-- C1 amended: for a staged file whose extension lower-cases to ".mp4",
a completed probe resolves to video exactly when its stripped stdout is
non-empty (an audio stream reported) and to animation when the stdout is
empty, regardless of the probe's exit status — so a probe that fails with
a non-zero exit and empty output resolves to animation; only when the
probe invocation itself raises does the classifier default to video. -/
theorem mp4_classification (ext : String) (h : py_lower ext = ".mp4")
    (code : Nat) (out : String) :
    (py_strip out ≠ "" → classify ext (ProbeOutcome.completed code out) = TransportKind.video)
    ∧ classify ext (ProbeOutcome.completed code "") = TransportKind.animation
    ∧ classify ext ProbeOutcome.exn = TransportKind.video := by
  unfold classify
  rw [h]
  refine ⟨?_, ?_, ?_⟩
  · intro hout
    have ha : has_audio (ProbeOutcome.completed code out) = true := by
      simp [has_audio]
      exact hout
    simp [classify_lower_mp4, ha]
  · have ha : has_audio (ProbeOutcome.completed code "") = false := by
      simp [has_audio]
      rfl
    simp [classify_lower_mp4, ha]
  · have ha : has_audio ProbeOutcome.exn = true := rfl
    simp [classify_lower_mp4, ha]

/-- Witness for C1 amended at the concrete extension ".MP4"
(case-insensitive), probe stdout "aac", and the failure exit status 1. -/
theorem mp4_classification_witness :
    classify ".MP4" (ProbeOutcome.completed 0 "aac") = TransportKind.video
    ∧ classify ".MP4" (ProbeOutcome.completed 1 "") = TransportKind.animation
    ∧ classify ".MP4" ProbeOutcome.exn = TransportKind.video :=
  ⟨(mp4_classification ".MP4" (by decide) 0 "aac").1 (by decide),
   (mp4_classification ".MP4" (by decide) 1 "").2.1,
   (mp4_classification ".MP4" (by decide) 1 "").2.2⟩

/-- C4 counterexample: the probing subprocess exits with the non-zero
status 1 and empty stdout (the behaviour of `ffprobe -v error` on an
unreadable file, whose diagnostics go to stderr), yet `has_audio` returns
false, not the claimed "has audio" = true: `subprocess.run` is invoked
without `check=True`, so a non-zero exit status does not reach the
exception handler. -/
theorem probe_nonzero_exit_counterexample :
    has_audio (ProbeOutcome.completed 1 "") = false := by decide

/-- C4 amended: the probe result is "has audio" = true when the subprocess
invocation itself raises, and also for any non-empty (stripped) stdout
regardless of exit status; but a completed probe with empty stdout yields
"has audio" = false even when the exit status is non-zero. -/
theorem probe_failure_default (code : Nat) (out : String) :
    has_audio ProbeOutcome.exn = true
    ∧ (py_strip out ≠ "" → has_audio (ProbeOutcome.completed code out) = true)
    ∧ has_audio (ProbeOutcome.completed code "") = false := by
  refine ⟨rfl, ?_, ?_⟩
  · intro hout
    simp [has_audio]
    exact hout
  · simp [has_audio]
    rfl

/-- Witness for C4 amended at exit status 1 with stdout "garbage". -/
theorem probe_failure_default_witness :
    has_audio ProbeOutcome.exn = true
    ∧ has_audio (ProbeOutcome.completed 1 "garbage") = true
    ∧ has_audio (ProbeOutcome.completed 1 "") = false :=
  ⟨(probe_failure_default 1 "garbage").1,
   (probe_failure_default 1 "garbage").2.1 (by decide),
   (probe_failure_default 1 "garbage").2.2⟩

/-- C3: every `send_media` invocation attempts deletion of the staged file
exactly once, as the final event of the invocation, whatever the delivery
oracle, recipient snapshot and unlink outcome are. -/
theorem send_media_always_unlinks (ext : String) (chats : List Int)
    (succ : Nat → Int → Bool) (uok : Bool) :
    (send_media ext chats succ uok).countP Event.isUnlinkEv = 1
    ∧ (send_media ext chats succ uok).getLast? = some (Event.unlink uok) := by
  constructor
  · unfold send_media
    rw [List.countP_append, List.countP_append, List.countP_append]
    have h1 : (classify_probe_events ext).countP Event.isUnlinkEv = 0 := by
      unfold classify_probe_events
      by_cases h : py_lower ext = ".mp4" <;> simp [h, Event.isUnlinkEv, List.countP_cons]
    have h2 : (([Event.settle] : List Event)).countP Event.isUnlinkEv = 0 := by
      simp [Event.isUnlinkEv, List.countP_cons]
    have h3 : (send_media_loop succ [1, 2, 3] chats.dedup).countP Event.isUnlinkEv = 0 :=
      send_media_loop_countP_zero succ [1, 2, 3] chats.dedup
        (fun e he => by cases e <;> simp_all [Event.isLoopEv, Event.isUnlinkEv])
    have h4 : (([Event.unlink uok] : List Event)).countP Event.isUnlinkEv = 1 := by
      simp [Event.isUnlinkEv, List.countP_cons]
    omega
  · exact List.getLast?_concat _

/-- C5 counterexample: for a ".mp4" staged file the full event trace of
`send_media` begins with the ffprobe file access and only then the settle
delay, so the delay does not elapse before the audio-probe access of the
file: classification (`bot.py` lines 137-176, ffprobe at line 145) runs
before `await asyncio.sleep(3)` (line 179). -/
theorem settle_delay_counterexample :
    send_media ".mp4" [5] (fun _ _ => true) true
      = [Event.probe, Event.settle, Event.send 1 5 true, Event.unlink true] := by decide

/-- C5 amended: the settle delay elapses before every delivery attempt and
before the deletion of the staged file (everything preceding the unique
settle event is a probe access), but classification runs before the delay
and for ".mp4" files its audio-probe access of the file precedes the
delay; for any other extension no event precedes the delay. -/
theorem settle_before_delivery (ext : String) (chats : List Int)
    (succ : Nat → Int → Bool) (uok : Bool) :
    (∀ e ∈ (send_media ext chats succ uok).takeWhile (fun e => !(e.isSettleEv)),
      e = Event.probe)
    ∧ (send_media ext chats succ uok).countP Event.isSettleEv = 1
    ∧ (py_lower ext ≠ ".mp4" →
        (send_media ext chats succ uok).takeWhile (fun e => !(e.isSettleEv)) = []) := by
  have hta : (send_media ext chats succ uok).takeWhile (fun e => !(e.isSettleEv))
      = classify_probe_events ext := by
    unfold send_media
    rw [List.append_assoc, List.append_assoc]
    rw [takeWhile_all_append _ _
      (fun e he => by rw [classify_probe_events_all_probe ext e he]; rfl)]
    simp [List.takeWhile_cons, Event.isSettleEv]
  refine ⟨?_, ?_, ?_⟩
  · intro e he
    rw [hta] at he
    exact classify_probe_events_all_probe ext e he
  · unfold send_media
    rw [List.countP_append, List.countP_append, List.countP_append]
    have h1 : (classify_probe_events ext).countP Event.isSettleEv = 0 := by
      unfold classify_probe_events
      by_cases h : py_lower ext = ".mp4" <;> simp [h, Event.isSettleEv, List.countP_cons]
    have h2 : (([Event.settle] : List Event)).countP Event.isSettleEv = 1 := by
      simp [Event.isSettleEv, List.countP_cons]
    have h3 : (send_media_loop succ [1, 2, 3] chats.dedup).countP Event.isSettleEv = 0 :=
      send_media_loop_countP_zero succ [1, 2, 3] chats.dedup
        (fun e he => by cases e <;> simp_all [Event.isLoopEv, Event.isSettleEv])
    have h4 : (([Event.unlink uok] : List Event)).countP Event.isSettleEv = 0 := by
      simp [Event.isSettleEv, List.countP_cons]
    omega
  · intro hext
    rw [hta]
    unfold classify_probe_events
    rw [if_neg hext]

/-- Witness for C5 amended at the concrete extension ".jpg", where the
settle delay is the very first event. -/
theorem settle_before_delivery_witness :
    (∀ e ∈ (send_media ".jpg" [7] (fun _ _ => false) true).takeWhile
      (fun e => !(e.isSettleEv)), e = Event.probe)
    ∧ (send_media ".jpg" [7] (fun _ _ => false) true).countP Event.isSettleEv = 1
    ∧ (send_media ".jpg" [7] (fun _ _ => false) true).takeWhile
        (fun e => !(e.isSettleEv)) = [] :=
  ⟨(settle_before_delivery ".jpg" [7] (fun _ _ => false) true).1,
   (settle_before_delivery ".jpg" [7] (fun _ _ => false) true).2.1,
   (settle_before_delivery ".jpg" [7] (fun _ _ => false) true).2.2 (by decide)⟩

/-- C2: in one `send_media` invocation on one recipient snapshot, every
recipient identifier receives at most 3 delivery attempts; once a delivery
to a recipient succeeds no later attempt is made to it; a recipient that
fails on pass 1 and succeeds on pass 2 gets exactly one successful delivery
and no attempt on pass 3; and when every delivery fails, every recipient in
the snapshot gets exactly 3 attempts. -/
theorem send_media_retry_policy (ext : String) (chats : List Int)
    (succ : Nat → Int → Bool) (uok : Bool) (r : Int) :
    (send_media ext chats succ uok).countP (Event.isSendTo r) ≤ 3
    ∧ (∀ (k kk : Nat) (ok : Bool), Event.send k r true ∈ send_media ext chats succ uok →
        k < kk → Event.send kk r ok ∉ send_media ext chats succ uok)
    ∧ (r ∈ chats → succ 1 r = false → succ 2 r = true →
        (send_media ext chats succ uok).countP (Event.isSuccessTo r) = 1
        ∧ ∀ ok : Bool, Event.send 3 r ok ∉ send_media ext chats succ uok)
    ∧ ((∀ a c, succ a c = false) → r ∈ chats →
        (send_media ext chats succ uok).countP (Event.isSendTo r) = 3) := by
  refine ⟨?_, ?_, ?_, ?_⟩
  · rw [countP_sendTo_trace]
    by_cases hr : r ∈ chats
    · rw [if_pos hr]
      exact retry_trace_length_le succ r [1, 2, 3]
    · simp [hr]
  · intro k kk ok hk hlt hkk
    rw [send_mem_trace] at hk hkk
    have hfin := retry_trace_success_final succ r [1, 2, 3] (by decide) k kk ok hk.2 hkk.2
    omega
  · intro hr h1 h2
    constructor
    · rw [countP_subpred (isSuccessTo_imp_isSendTo r), filter_send_trace, if_pos hr]
      simp [retry_trace, h1, h2, List.countP_cons, Event.isSuccessTo]
    · intro ok hmem
      rw [send_mem_trace] at hmem
      simp [retry_trace, h1, h2] at hmem
  · intro hfail hr
    rw [countP_sendTo_trace, if_pos hr]
    simp [retry_trace, hfail]

/-- Witness for C2: a single-recipient snapshot where every delivery fails
yields exactly 3 attempts, and one where pass 1 fails and pass 2 succeeds
yields one successful delivery and no pass-3 attempt. -/
theorem send_media_retry_policy_witness :
    (send_media ".mp4" [7] (fun _ _ => false) true).countP (Event.isSendTo 7) = 3
    ∧ (send_media ".mp4" [7] (fun a _ => a == 2) true).countP (Event.isSuccessTo 7) = 1
    ∧ ∀ ok : Bool, Event.send 3 7 ok ∉ send_media ".mp4" [7] (fun a _ => a == 2) true :=
  ⟨(send_media_retry_policy ".mp4" [7] (fun _ _ => false) true 7).2.2.2
      (fun _ _ => rfl) (by decide),
   ((send_media_retry_policy ".mp4" [7] (fun a _ => a == 2) true 7).2.2.1
      (by decide) (by decide) (by decide)).1,
   ((send_media_retry_policy ".mp4" [7] (fun a _ => a == 2) true 7).2.2.1
      (by decide) (by decide) (by decide)).2⟩

/-- C10: even when the recipient registry list contains duplicate
identifiers, the pending set is built from the deduplicated snapshot
`set(chat_ids)`, so each distinct identifier is attempted at most once per
pass and receives at most one successful delivery per invocation. -/
theorem send_media_dedup_attempts (ext : String) (chats : List Int)
    (succ : Nat → Int → Bool) (uok : Bool) (r : Int) (k : Nat) :
    (send_media ext chats succ uok).countP (Event.isSendAt k r) ≤ 1
    ∧ (send_media ext chats succ uok).countP (Event.isSuccessTo r) ≤ 1 := by
  constructor
  · rw [countP_subpred (isSendAt_imp_isSendTo k r), filter_send_trace]
    by_cases hr : r ∈ chats
    · rw [if_pos hr]
      exact retry_trace_sendAt_le_one succ r k [1, 2, 3] (by decide)
    · simp [hr]
  · rw [countP_subpred (isSuccessTo_imp_isSendTo r), filter_send_trace]
    by_cases hr : r ∈ chats
    · rw [if_pos hr]
      exact retry_trace_success_le_one succ r [1, 2, 3]
    · simp [hr]

/-- C6 counterexample: an inbound media event whose sender identifier 0 is
in the blocklist (chat id 5 is not) is still persisted, as the staged file
"5-1": the guard `sender_id and sender_id in blocked` (`users/login.py`
line 179) skips the membership test because the integer 0 is falsy in
Python, and the identifier then falls back to the chat id. -/
theorem blocklist_zero_sender_counterexample :
    (InEvent.mk 5 (some 0) 1 true []).sender_id = some 0
    ∧ ((0 : Int) ∈ ([0] : List Int))
    ∧ new_media_handler (InEvent.mk 5 (some 0) 1 true []) [0] = some "5-1" := by decide

/-- C6 amended: an inbound media event whose chat identifier is in the
freshly loaded blocklist, or whose sender identifier is present, non-zero
and in the blocklist, persists nothing: zero staged files are produced. -/
theorem blocklist_containment (ev : InEvent) (blocked : List Int)
    (hb : ev.chat_id ∈ blocked ∨ ∃ s : Int, ev.sender_id = some s ∧ s ≠ 0 ∧ s ∈ blocked) :
    new_media_handler ev blocked = none := by
  unfold new_media_handler
  by_cases hm : ev.carries_media
  · have hcond : ev.chat_id ∈ blocked
        ∨ (py_truthy ev.sender_id ∧ ev.sender_id.getD 0 ∈ blocked) := by
      rcases hb with h | ⟨s, hs, hs0, hsb⟩
      · exact Or.inl h
      · refine Or.inr ?_
        rw [hs]
        constructor
        · simp [py_truthy, hs0]
        · simpa using hsb
    simp only [hm, if_true]
    rw [if_pos hcond]
  · simp only [hm, Bool.false_eq_true, if_false]

/-- Witness for C6 amended: a blocked non-zero sender produces no staged
file. -/
theorem blocklist_containment_witness :
    new_media_handler (InEvent.mk 7 (some 3) 1 true []) [3] = none :=
  blocklist_containment (InEvent.mk 7 (some 3) 1 true []) [3]
    (Or.inr ⟨3, rfl, by decide, by decide⟩)

/-- C7: on one monitor pass over a directory snapshot, every file entry
whose (lower-cased) suffix is in the allowed extension set is handed to the
distribution engine and never deleted by the monitor; every file entry with
a disallowed suffix is deleted immediately and never distributed; and every
directory entry is deleted recursively. -/
theorem monitor_pass_dispatch (entries : List FsEntry) (n : String) :
    (FsEntry.file n ∈ entries →
      (py_lower (path_suffix n) ∈ allowed_extensions →
        MonAction.distribute n ∈ monitor_folder_pass entries
        ∧ MonAction.delFile n ∉ monitor_folder_pass entries)
      ∧ (py_lower (path_suffix n) ∉ allowed_extensions →
        MonAction.delFile n ∈ monitor_folder_pass entries
        ∧ MonAction.distribute n ∉ monitor_folder_pass entries))
    ∧ (FsEntry.dir n ∈ entries → MonAction.delDir n ∈ monitor_folder_pass entries) := by
  have mem_iff : ∀ a : MonAction, a ∈ monitor_folder_pass entries ↔
      ∃ e ∈ entries, a ∈ handle_entry e := by
    intro a
    unfold monitor_folder_pass
    rw [List.mem_flatten]
    constructor
    · rintro ⟨l, hl, hal⟩
      rcases List.mem_map.mp hl with ⟨e, he, rfl⟩
      exact ⟨e, he, hal⟩
    · rintro ⟨e, he, hae⟩
      exact ⟨handle_entry e, List.mem_map.mpr ⟨e, he, rfl⟩, hae⟩
  refine ⟨fun hf => ⟨fun hall => ⟨?_, ?_⟩, fun hnall => ⟨?_, ?_⟩⟩, fun hd => ?_⟩
  · exact (mem_iff _).mpr ⟨_, hf, by simp [handle_entry, hall]⟩
  · intro hmem
    rcases (mem_iff _).mp hmem with ⟨e, he, hae⟩
    cases e with
    | file m =>
      by_cases hm : py_lower (path_suffix m) ∈ allowed_extensions
      · simp [handle_entry, hm] at hae
      · simp [handle_entry, hm] at hae
        subst hae
        exact hm hall
    | dir m => simp [handle_entry] at hae
    | other m => simp [handle_entry] at hae
  · exact (mem_iff _).mpr ⟨_, hf, by simp [handle_entry, hnall]⟩
  · intro hmem
    rcases (mem_iff _).mp hmem with ⟨e, he, hae⟩
    cases e with
    | file m =>
      by_cases hm : py_lower (path_suffix m) ∈ allowed_extensions
      · simp [handle_entry, hm] at hae
        subst hae
        exact hnall hm
      · simp [handle_entry, hm] at hae
    | dir m => simp [handle_entry] at hae
    | other m => simp [handle_entry] at hae
  · exact (mem_iff _).mpr ⟨_, hd, by simp [handle_entry]⟩

/-- Witness for C7 on a concrete snapshot holding an allowed ".mp4" file,
a disallowed ".exe" file and a directory. -/
theorem monitor_pass_dispatch_witness :
    (MonAction.distribute "a.mp4"
        ∈ monitor_folder_pass [FsEntry.file "a.mp4", FsEntry.file "b.exe", FsEntry.dir "d"]
      ∧ MonAction.delFile "a.mp4"
        ∉ monitor_folder_pass [FsEntry.file "a.mp4", FsEntry.file "b.exe", FsEntry.dir "d"])
    ∧ (MonAction.delFile "b.exe"
        ∈ monitor_folder_pass [FsEntry.file "a.mp4", FsEntry.file "b.exe", FsEntry.dir "d"]
      ∧ MonAction.distribute "b.exe"
        ∉ monitor_folder_pass [FsEntry.file "a.mp4", FsEntry.file "b.exe", FsEntry.dir "d"])
    ∧ MonAction.delDir "d"
        ∈ monitor_folder_pass [FsEntry.file "a.mp4", FsEntry.file "b.exe", FsEntry.dir "d"] :=
  ⟨(monitor_pass_dispatch [FsEntry.file "a.mp4", FsEntry.file "b.exe", FsEntry.dir "d"]
      "a.mp4").1 (by decide) |>.1 (by decide),
   ((monitor_pass_dispatch [FsEntry.file "a.mp4", FsEntry.file "b.exe", FsEntry.dir "d"]
      "b.exe").1 (by decide)).2 (by decide),
   (monitor_pass_dispatch [FsEntry.file "a.mp4", FsEntry.file "b.exe", FsEntry.dir "d"]
      "d").2 (by decide)⟩

/-- C8 counterexample: starting from the registry [5], add(5) is a no-op
(the id is already present) and remove(5) then deletes the existing entry,
so the round trip yields [] and the prior content is not restored even up
to set equality. -/
theorem add_remove_counterexample :
    remove_command (add_command [5] 5) 5 = ([] : List Int)
    ∧ ¬((5 : Int) ∈ remove_command (add_command [5] 5) 5 ↔ (5 : Int) ∈ ([5] : List Int)) := by
  decide

/-- C8 amended: for every registry state and every identifier not already
present, add(X) then remove(X) restores the exact prior durable list
content (hence also its set of members); when X is already present the
add is a no-op and the remove deletes the pre-existing occurrence. -/
theorem add_remove_roundtrip (l : List Int) (x : Int) (hx : x ∉ l) :
    remove_command (add_command l x) x = l := by
  unfold add_command remove_command
  rw [if_neg hx, if_pos (by simp), List.erase_append_right _ hx]
  simp [List.erase_cons_head]

/-- Witness for C8 amended: adding then removing the absent id 9 restores
[1, 2]. -/
theorem add_remove_roundtrip_witness :
    remove_command (add_command [1, 2] 9) 9 = [1, 2] :=
  add_remove_roundtrip [1, 2] 9 (by decide)

/-- C9 counterexample: starting from the duplicate-free registry [], the
bulk-replace operation with the uploaded JSON list [1, 1] installs the
payload verbatim, producing a registry that contains the identifier 1
twice. -/
theorem replace_duplicates_counterexample :
    (([] : List Int)).Nodup
    ∧ ¬(json_document_handler [] (JsonPayload.list [1, 1])).Nodup := by decide

/-- C9 amended: add and remove preserve duplicate-freeness of the registry
list, and bulk replace installs the uploaded payload verbatim, so it
preserves duplicate-freeness exactly when the payload itself is
duplicate-free (non-list and malformed payloads leave the registry
unchanged). -/
theorem registry_uniqueness (l : List Int) (x : Int) (hl : l.Nodup) :
    (add_command l x).Nodup
    ∧ (remove_command l x).Nodup
    ∧ (∀ xs : List Int, xs.Nodup → (json_document_handler l (JsonPayload.list xs)).Nodup)
    ∧ (json_document_handler l JsonPayload.nonList).Nodup
    ∧ (json_document_handler l JsonPayload.malformed).Nodup := by
  refine ⟨?_, ?_, fun xs hxs => hxs, hl, hl⟩
  · unfold add_command
    by_cases hx : x ∈ l
    · simp [hx, hl]
    · simp [hx, List.nodup_append, hl]
  · unfold remove_command
    by_cases hx : x ∈ l
    · simp [hx, hl.erase]
    · simp [hx, hl]

/-- Witness for C9 amended on the concrete registry [1, 2]. -/
theorem registry_uniqueness_witness :
    (add_command [1, 2] 3).Nodup
    ∧ (remove_command [1, 2] 3).Nodup
    ∧ (json_document_handler [1, 2] (JsonPayload.list [4, 5])).Nodup
    ∧ (json_document_handler [1, 2] JsonPayload.nonList).Nodup
    ∧ (json_document_handler [1, 2] JsonPayload.malformed).Nodup :=
  ⟨(registry_uniqueness [1, 2] 3 (by decide)).1,
   (registry_uniqueness [1, 2] 3 (by decide)).2.1,
   (registry_uniqueness [1, 2] 3 (by decide)).2.2.1 [4, 5] (by decide),
   (registry_uniqueness [1, 2] 3 (by decide)).2.2.2.1,
   (registry_uniqueness [1, 2] 3 (by decide)).2.2.2.2⟩
